import Mathlib

/-!
Formal model of the Python-Media-Scanner core: `scanner.py` (file scanning,
categorization, duration probing, progress reporting) and `compare.py`
(snapshot loading, item normalization, matching, comparison).

The Python code is shallowly embedded: pure fragments become Lean functions;
I/O boundaries (filesystem stat, subprocess probes, optional libraries,
hashing, file reads) become explicit oracle fields of input structures, where
`Except Unit α` encodes "raised an exception" (`.error ()`) versus "returned
a value" (`.ok a`).  Machine floats appearing in the progress computation are
modelled exactly as IEEE-754 binary64 round-to-nearest-even over ℚ.
Durations are modelled as rationals.
-/

/-- Model of Python `str.lower()` (agrees on the ASCII range used here). -/
def pyLower (s : String) : String :=
  ⟨s.data.map Char.toLower⟩

/-- Characters stripped by Python `str.strip()` with no argument. -/
def pyWhitespace (c : Char) : Bool :=
  c.isWhitespace

/-- Model of Python `str.strip()`: drop whitespace from both ends. -/
def pyStrip (s : String) : String :=
  ⟨((s.data.dropWhile pyWhitespace).reverse.dropWhile pyWhitespace).reverse⟩

/-- Truthiness of a Python string: non-empty strings are truthy. -/
def strTruthy (s : String) : Bool :=
  !s.data.isEmpty

/-- Model of Python's `x or y` for optional strings: the first truthy value,
else the second value (with missing keys read as falsy). -/
def pyOrStr (a b : Option String) : Option String :=
  match a with
  | some s => if strTruthy s then some s else b
  | none => b

/-- Read an optional-string chain `a or b or dflt` down to a string. -/
def pyOrStrD (a b : Option String) (dflt : String) : String :=
  match pyOrStr a b with
  | some s => if strTruthy s then s else dflt
  | none => dflt

/-- Model of Python `needle in hay` substring containment on strings. -/
def strContains (hay needle : String) : Bool :=
  (List.range (hay.data.length + 1)).any fun i => needle.data.isPrefixOf (hay.data.drop i)

/-- Model of `pathlib.PurePath.suffix`: the final extension of `name`,
including the leading dot; empty when the last dot is at position 0 (hidden
file), at the very end, or absent. -/
def pathSuffix (name : String) : String :=
  let cs := name.data
  let dotIdxs := (List.range cs.length).filter fun i => cs.getD i ' ' = '.'
  match dotIdxs.getLast? with
  | none => ""
  | some i => if 0 < i ∧ i < cs.length - 1 then ⟨cs.drop i⟩ else ""

/-- Model of Python `int()` applied to a rational: truncation toward zero. -/
def pyInt (q : ℚ) : ℤ :=
  if q < 0 then -⌊-q⌋ else ⌊q⌋

/-- Model of Python `int(s)` on a string: optional surrounding whitespace,
optional sign, then one or more decimal digits; anything else raises (here:
`none`).  (Numeric-literal underscores are outside the modelled inputs.) -/
def pyIntOfString (s : String) : Option ℤ :=
  let cs := (pyStrip s).data
  let (sign, digits) :=
    match cs with
    | '-' :: rest => ((-1 : ℤ), rest)
    | '+' :: rest => ((1 : ℤ), rest)
    | _ => ((1 : ℤ), cs)
  if digits ≠ [] ∧ digits.all Char.isDigit then
    some (sign * digits.foldl (fun acc c => 10 * acc + (c.toNat - '0'.toNat)) 0)
  else
    none

/-- Zero-padded two-digit rendering, as in the format spec `{n:02d}`. -/
def pad2 (n : ℤ) : String :=
  if 0 ≤ n ∧ n < 10 then "0" ++ toString n else toString n

/-!  ## IEEE-754 binary64 model (for the float progress arithmetic)

`scanner.py` computes `int((count / total) * 100)` in Python floats.  We model
binary64 round-to-nearest-even exactly on ℚ (exponent range unbounded:
all values arising here are well inside the normal range).
-/

/-- Round a rational to the nearest integer, ties to even. -/
def rndHalfEven (x : ℚ) : ℤ :=
  let n := ⌊x⌋
  let f := x - (n : ℚ)
  if f < 1 / 2 then n
  else if 1 / 2 < f then n + 1
  else if Even n then n else n + 1

/-- Round a rational to the nearest IEEE binary64 value (53-bit significand,
round-to-nearest-even, unbounded exponent), as a rational.  Nonpositive
inputs do not occur at the call sites and are clamped to 0. -/
def roundFloat (q : ℚ) : ℚ :=
  if q ≤ 0 then 0
  else
    let e := Int.log 2 q
    (rndHalfEven (q * (2 : ℚ) ^ ((52 : ℤ) - e)) : ℚ) * (2 : ℚ) ^ (e - (52 : ℤ))

/-- The progress percentage `int((count / total) * 100)` as computed by the
source in binary64 arithmetic (`/` is float true division). -/
def pyPercent (count total : ℕ) : ℕ :=
  (pyInt (roundFloat (roundFloat ((count : ℚ) / (total : ℚ)) * 100))).toNat

/-!  ## scanner.py -/

/-- `VIDEO_EXTS` from scanner.py. -/
def VIDEO_EXTS : List String :=
  [".mp4", ".mkv", ".avi", ".mov", ".flv", ".wmv", ".webm", ".ts", ".m2ts",
   ".vob", ".mpeg", ".mpg", ".ogv", ".3gp", ".f4v", ".mxf", ".hevc", ".h264", ".h265"]

/-- `AUDIO_EXTS` from scanner.py. -/
def AUDIO_EXTS : List String :=
  [".mp3", ".wav", ".flac", ".aac", ".m4a", ".ogg", ".opus", ".wma", ".aiff",
   ".alac", ".mid", ".midi", ".amr", ".ape", ".ra", ".rm"]

/-- `IMAGE_EXTS` from scanner.py. -/
def IMAGE_EXTS : List String :=
  [".jpg", ".jpeg", ".png", ".bmp", ".gif", ".tiff", ".tif", ".heic", ".webp",
   ".raw", ".cr2", ".nef", ".orf", ".arw", ".dng", ".psd", ".svg"]

/-- `ALL_KNOWN = VIDEO_EXTS | AUDIO_EXTS | IMAGE_EXTS`. -/
def ALL_KNOWN : List String :=
  VIDEO_EXTS ++ AUDIO_EXTS ++ IMAGE_EXTS

/-- `Scanner._categorize_by_ext` from scanner.py (the class defines it twice,
identically; this is that single body). -/
def categorize_by_ext (ext : String) : String :=
  if ext ∈ VIDEO_EXTS then "Videos"
  else if ext ∈ AUDIO_EXTS then "Musik"
  else if ext ∈ IMAGE_EXTS then "Fotos"
  else "Other"

/-- A Python float as a duration value: finite values are exact rationals,
and the non-finite values `float("inf")`, `float("-inf")` and `float("nan")`
— all of which `float(...)` can produce at the probe boundaries — are
represented explicitly. -/
inductive PyFloat where
  | finite (q : ℚ)
  | inf
  | neginf
  | nan
deriving DecidableEq, Repr

/-- `Scanner._fmt_duration` from scanner.py; `if not seconds` is Python
falsiness, true for `None` and for `0.0`.  On a non-finite duration the
`int(seconds)` call raises (OverflowError for ±inf, ValueError for nan),
modelled as `.error ()`; the formatter itself has no handler, the caller's
`except` does. -/
def fmt_duration (seconds : Option PyFloat) : Except Unit String :=
  match seconds with
  | none => .ok "N/A"
  | some .inf => .error ()
  | some .neginf => .error ()
  | some .nan => .error ()
  | some (.finite q) =>
    if q = 0 then .ok "N/A"
    else
      let t := pyInt q
      let minutes0 := Int.fdiv t 60
      let sec := Int.fmod t 60
      let hours := Int.fdiv minutes0 60
      let minutes := Int.fmod minutes0 60
      if hours ≠ 0 then
        .ok (toString hours ++ ":" ++ pad2 minutes ++ ":" ++ pad2 sec)
      else
        .ok (pad2 minutes ++ ":" ++ pad2 sec)

/-- Decidable equality for the exception-outcome type. -/
instance {ε α : Type} [DecidableEq ε] [DecidableEq α] : DecidableEq (Except ε α) := fun x y =>
  match x, y with
  | .error a, .error b =>
    if h : a = b then isTrue (by rw [h]) else isFalse (by simp [Except.error.injEq, h])
  | .ok a, .ok b =>
    if h : a = b then isTrue (by rw [h]) else isFalse (by simp [Except.ok.injEq, h])
  | .error _, .ok _ => isFalse (by simp)
  | .ok _, .error _ => isFalse (by simp)

/-- Oracle for one file's duration-probe environment.  Each field records the
outcome of an I/O boundary: `.error ()` means the underlying call raised.
`ffprobeOut` collapses `subprocess.run` + `strip` + `float(...)`: `.ok none`
is an empty stdout, `.ok (some d)` a parsed float — possibly `inf`/`nan`,
which `float("inf")`/`float("nan")` produce — and `.error ()` any raise
(timeout, missing binary, unparsable output).  `mediaInfoTracks` lists each
track's `duration` attribute as a float (`none` when absent or `None`; a
string-typed attribute is collapsed into the conversion outcome).
`mutagenInfo` is the `length` attribute of `MutagenFile(path).info` when
usable. -/
structure DurEnv where
  ffprobeOut : Except Unit (Option PyFloat)
  mediaInfoAvail : Bool
  mediaInfoTracks : Except Unit (List (Option PyFloat))
  mutagenAvail : Bool
  mutagenInfo : Except Unit (Option PyFloat)
deriving DecidableEq, Repr

/-- `run_ffprobe_duration` from scanner.py: any exception is swallowed to
`None`, an empty output yields `None`. -/
def run_ffprobe_duration (env : DurEnv) : Option PyFloat :=
  match env.ffprobeOut with
  | .error _ => none
  | .ok o => o

/-- Python float division by 1000, preserving non-finite values. -/
def pyDivThousand (d : PyFloat) : PyFloat :=
  match d with
  | .finite q => .finite (q / 1000)
  | .inf => .inf
  | .neginf => .neginf
  | .nan => .nan

/-- `pymediainfo_duration` from scanner.py: `None` when the library is
missing, on any exception, and when no track has a truthy duration; else the
first truthy track duration divided by 1000 (`0.0` is falsy, `inf`/`nan` are
truthy). -/
def pymediainfo_duration (env : DurEnv) : Option PyFloat :=
  if env.mediaInfoAvail = false then none
  else
    match env.mediaInfoTracks with
    | .error _ => none
    | .ok tracks =>
      tracks.findSome? fun t =>
        match t with
        | some d => if d = .finite 0 then none else some (pyDivThousand d)
        | none => none

/-- `mutagen_duration` from scanner.py: `None` when the library is missing or
anything raised; else the reported stream length (which may itself be `None`,
or zero, and is returned without a truthiness check). -/
def mutagen_duration (env : DurEnv) : Option PyFloat :=
  if env.mutagenAvail = false then none
  else
    match env.mutagenInfo with
    | .error _ => none
    | .ok o => o

/-- Truthiness of an optional float: `None` and `0.0` are falsy; every other
float, including `inf` and `nan`, is truthy. -/
def durTruthy (d : Option PyFloat) : Bool :=
  match d with
  | some (.finite q) => q ≠ 0
  | some _ => true
  | none => false

/-- `get_duration` from scanner.py: the three strategies in order, each
result kept only when truthy (`if d:`), else `None`. -/
def get_duration (env : DurEnv) : Option PyFloat :=
  let d := run_ffprobe_duration env
  if durTruthy d then d
  else
    let d := pymediainfo_duration env
    if durTruthy d then d
    else
      let d := mutagen_duration env
      if durTruthy d then d
      else none

/-- One regular file as enumerated by `os.walk`, with its per-file I/O
oracles: `statSize` is `full.stat().st_size` (or a raise), `hashResult` is
`sha256_of_file(full)` (or a raise while reading), `durEnv` the probe
environment. -/
structure FileEntry where
  name : String
  path : String
  statSize : Except Unit ℕ
  durEnv : DurEnv
  hashResult : Except Unit String
deriving DecidableEq, Repr

/-- One emitted item record of `Scanner.scan_folder`.  `sha256` is `none`
exactly when hashing was not requested. -/
structure Item where
  name : String
  path : String
  size : ℕ
  size_display : String
  ext : String
  category : String
  duration : Option PyFloat
  duration_display : String
  sha256 : Option String
deriving DecidableEq, Repr

/-- The `duration` assigned by the loop body of `scan_folder`: probed only
for Videos/Musik extensions; when `_fmt_duration` raises on the probed value,
the inner `except` resets it to `None`. -/
def scanDuration (f : FileEntry) : Option PyFloat :=
  if pyLower (pathSuffix f.name) ∈ VIDEO_EXTS ∨ pyLower (pathSuffix f.name) ∈ AUDIO_EXTS then
    match fmt_duration (get_duration f.durEnv) with
    | .ok _ => get_duration f.durEnv
    | .error _ => none
  else
    none

/-- The `duration_display` assigned by the loop body: for Videos/Musik
extensions the formatted duration, or `"Error"` when `_fmt_duration` raised
(the inner `except` branch — reached exactly on a non-finite probed
duration); `"N/A"` otherwise.  `get_duration` itself never raises. -/
def scanDurationDisplay (f : FileEntry) : String :=
  if pyLower (pathSuffix f.name) ∈ VIDEO_EXTS ∨ pyLower (pathSuffix f.name) ∈ AUDIO_EXTS then
    match fmt_duration (get_duration f.durEnv) with
    | .ok s => s
    | .error _ => "Error"
  else
    "N/A"

/-- The body of the per-file `try` block of `Scanner.scan_folder`: `none`
when any step raised (the file is then skipped), `some item` otherwise.
`fmt` abstracts `sizeof_fmt` (pure float string formatting; no claim depends
on its output). -/
def processFile (include_hash : Bool) (fmt : ℕ → String) (f : FileEntry) : Option Item :=
  match f.statSize with
  | .error _ => none
  | .ok size =>
    if include_hash then
      match f.hashResult with
      | .error _ => none
      | .ok h =>
        some { name := f.name, path := f.path, size := size, size_display := fmt size,
               ext := pyLower (pathSuffix f.name),
               category := categorize_by_ext (pyLower (pathSuffix f.name)),
               duration := scanDuration f,
               duration_display := scanDurationDisplay f, sha256 := some h }
    else
      some { name := f.name, path := f.path, size := size, size_display := fmt size,
             ext := pyLower (pathSuffix f.name),
             category := categorize_by_ext (pyLower (pathSuffix f.name)),
             duration := scanDuration f,
             duration_display := scanDurationDisplay f, sha256 := none }

/-- The enumerated loop of `Scanner.scan_folder`, accumulating emitted items
and — in the `finally` block, when a callback was supplied — the trace of
`update_callback(progress, str(full))` invocations.  `count` starts at 1. -/
def scanLoop (include_hash : Bool) (fmt : ℕ → String) (hasCallback : Bool)
    (total : ℕ) : ℕ → List FileEntry → List Item × List (ℕ × String)
  | _, [] => ([], [])
  | count, f :: rest =>
    let item? := processFile include_hash fmt f
    let tail := scanLoop include_hash fmt hasCallback total (count + 1) rest
    (match item? with
     | some it => it :: tail.1
     | none => tail.1,
     if hasCallback then (pyPercent count total, f.path) :: tail.2 else tail.2)

/-- `Scanner.scan_folder` from scanner.py, with the recursive enumeration
already materialized as `files` (in `os.walk` order).  Returns the item list
together with the trace of progress-callback invocations. -/
def scan_folder (include_hash : Bool) (fmt : ℕ → String) (hasCallback : Bool)
    (files : List FileEntry) : List Item × List (ℕ × String) :=
  if files.length = 0 then ([], [])
  else scanLoop include_hash fmt hasCallback files.length 1 files

/-!  ## compare.py -/

/-- Replace every non-overlapping occurrence of `pat` (non-empty at all call
sites) by `rep`, scanning left to right, as Python `str.replace`.  `fuel`
bounds recursion and is instantiated with the list length. -/
def replaceAux (pat rep : List Char) : ℕ → List Char → List Char
  | 0, cs => cs
  | _, [] => []
  | fuel + 1, c :: cs =>
    if pat.isPrefixOf (c :: cs) then
      rep ++ replaceAux pat rep fuel ((c :: cs).drop pat.length)
    else
      c :: replaceAux pat rep fuel cs

/-- Model of Python `s.replace(pat, rep)` for non-empty `pat`. -/
def pyReplace (s pat rep : String) : String :=
  ⟨replaceAux pat.data rep.data s.data.length s.data⟩

/-- Split a character list at every character satisfying `p`, keeping empty
groups. -/
def splitChars (p : Char → Bool) (cs : List Char) : List (List Char) :=
  cs.foldr
    (fun c acc =>
      match acc with
      | [] => if p c then [[], []] else [[c]]
      | g :: gs => if p c then [] :: g :: gs else (c :: g) :: gs)
    [[]]

/-- Model of Python `s.split()` (no argument): split on whitespace runs,
discarding empty fields. -/
def pySplitWs (s : String) : List String :=
  ((splitChars pyWhitespace s.data).map fun g => (⟨g⟩ : String)).filter strTruthy

/-- Model of Python `s.split(sep)` for a one-character separator: empty
fields are kept. -/
def pySplitOn (sep : Char) (s : String) : List String :=
  (splitChars (fun c => c = sep) s.data).map fun g => (⟨g⟩ : String)

/-- Model of Python `" ".join(parts)`. -/
def joinSpace (parts : List String) : String :=
  match parts with
  | [] => ""
  | p :: ps => ps.foldl (fun acc q => acc ++ " " ++ q) p

/-- The resolution-marker list of `_normalize_name` in compare.py. -/
def res_markers : List String :=
  ["720p", "1080p", "2160p", "4k", "uhd", "480p", "hdtv", "fullhd", "hd"]

/-- `_normalize_name` from compare.py: lower-case, strip resolution markers,
turn dots and brackets into spaces, collapse whitespace. -/
def normalize_name (name : String) : String :=
  let n1 := res_markers.foldl (fun n m => pyReplace n m "") (pyLower name)
  let n2 := pyReplace (pyReplace (pyReplace n1 "." " ") "[" " ") "]" " "
  joinSpace (pySplitWs n2)

/-- A raw Python value that can sit under a size key of an input record:
`None`, an integer, or a string.  (Sizes are byte counts; non-integral JSON
numbers do not occur in the modelled inputs.) -/
inductive RawVal where
  | null
  | int (n : ℤ)
  | str (s : String)
deriving DecidableEq, Repr

/-- One raw input record of the Comparator (a Python dict), restricted to the
keys `_normalize_item`, `_index_items` and `_load_scanfile` actually consult.
A field is `none` when the key is absent.  Title-case fields model the legacy
`"Name"`-style keys. -/
structure RawItem where
  nameT : Option String := none
  name : Option String := none
  pathT : Option String := none
  path : Option String := none
  sizeT : Option RawVal := none
  size : Option RawVal := none
  sizeDisplayT : Option String := none
  size_display : Option String := none
  durationDisplayT : Option String := none
  duration_display : Option String := none
  extT : Option String := none
  ext : Option String := none
  categoryT : Option String := none
  category : Option String := none
deriving DecidableEq, Repr

/-- The canonical item shape produced by `Compare._normalize_item`. -/
structure NormItem where
  name : String
  path : String
  size : Option ℤ
  size_display : String
  duration_display : String
  ext : String
  category : String
deriving DecidableEq, Repr

/-- The size-extraction block of `_normalize_item`: `"Size"` shadows
`"size"` even when its value is `None`; an integer is kept, a string is
parsed with `int(...)` and any parse failure leaves the size absent. -/
def normSizeVal (it : RawItem) : Option ℤ :=
  let rawSize : Option RawVal :=
    match it.sizeT with
    | some v => some v
    | none => it.size
  match rawSize with
  | none => none
  | some .null => none
  | some (.int n) => some n
  | some (.str s) => pyIntOfString s

/-- `Compare._normalize_item` from compare.py. -/
def normalize_item (it : RawItem) : NormItem :=
  let size_val := normSizeVal it
  { name := pyOrStrD it.nameT it.name ""
    path := pyOrStrD it.pathT it.path ""
    size := size_val
    size_display :=
      pyOrStrD it.sizeDisplayT it.size_display
        (match size_val with
         | some n => toString n
         | none => "")
    duration_display := pyOrStrD it.durationDisplayT it.duration_display "N/A"
    ext := pyLower (pyOrStrD it.extT it.ext "")
    category := pyOrStrD it.categoryT it.category "Other" }

/-- `Compare._items_match` from compare.py (defined there but never invoked
by `_compare_lists`): numeric sizes compare as integers; else non-empty
cleaned size displays compare; else normalized names compare. -/
def items_match (l r : NormItem) : Bool :=
  match l.size, r.size with
  | some a, some b => a == b
  | _, _ =>
    let ld := pyReplace (pyReplace (pyLower l.size_display) " " "") "," ""
    let rd := pyReplace (pyReplace (pyLower r.size_display) " " "") "," ""
    if strTruthy ld && strTruthy rd then ld == rd
    else normalize_name l.name == normalize_name r.name

/-- The per-key bucket of `_index_items`, as a lookup: the items (in list
order) whose non-empty name normalizes to `k`.  Items with an empty name are
skipped, exactly as the `continue` in `_index_items`. -/
def lookupKey (items : List NormItem) (k : String) : List NormItem :=
  (items.filter fun it => strTruthy it.name).filter fun it => normalize_name it.name = k

/-- The key set of `_index_items` for one side, with multiplicity and in
first-occurrence order (deduplicated below before use). -/
def keysOf (items : List NormItem) : List String :=
  (items.filter fun it => strTruthy it.name).map fun it => normalize_name it.name

/-- A Python value stored in a comparison-result size field: the code puts
strings there normally, but the only-one-side branches can fall back to the
raw `size` value, an integer or `None`. -/
inductive PyVal where
  | str (s : String)
  | int (n : ℤ)
  | null
deriving DecidableEq, Repr

/-- One entry of the comparison result list. -/
structure ResultEntry where
  file : String
  category : String
  status : String
  left_size : PyVal
  right_size : PyVal
deriving DecidableEq, Repr

/-- Value of `item.get("size_display") or item.get("size", "")` on a
normalized item: the display string when truthy, else the raw size (an
integer, or Python `None` when the size is absent — the key exists, so the
`.get` default `""` is never used). -/
def sizeOrFallback (it : NormItem) : PyVal :=
  if strTruthy it.size_display then .str it.size_display
  else
    match it.size with
    | some n => .int n
    | none => .null

/-- The result entry `_compare_lists` builds for one key of the union.  When
a key is present on both sides the status is unconditionally `"both_same"`
(the code comments "Always consider items with same normalized name as
matches"; `_items_match` is not called).  The `[], []` case cannot arise for
a key of the union (Python would raise an `IndexError` there). -/
def entryForKey (L R : List NormItem) (k : String) : ResultEntry :=
  match lookupKey L k, lookupKey R k with
  | l :: _, r :: _ =>
    { file := k, category := l.category, status := "both_same",
      left_size := .str l.size_display, right_size := .str r.size_display }
  | l :: _, [] =>
    { file := k, category := l.category, status := "only_left",
      left_size := sizeOrFallback l, right_size := .str "" }
  | [], r :: _ =>
    { file := k, category := r.category, status := "only_right",
      left_size := .str "", right_size := sizeOrFallback r }
  | [], [] =>
    { file := k, category := "", status := "only_right",
      left_size := .str "", right_size := .str "" }

/-- `Compare._compare_lists` from compare.py: normalize both sides, index by
normalized name, walk the sorted union of keys building one entry each. -/
def compare_lists (left right : List RawItem) : List ResultEntry :=
  let L := left.map normalize_item
  let R := right.map normalize_item
  let allKeys := List.insertionSort (fun a b => a ≤ b) (keysOf L ++ keysOf R).dedup
  allKeys.map (entryForKey L R)

/-- Outcome of `json.load` on the snapshot file: a list of records, or some
other JSON value. -/
inductive JsonData where
  | list (items : List RawItem)
  | nonList
deriving DecidableEq, Repr

/-- One snapshot file as seen by `Compare._load_scanfile`: its path suffix
(`Path(path).suffix`), the outcome of opening + `json.load` (`.error ()` for
an unreadable file or malformed JSON), and the outcome of opening +
`readlines` (`.error ()` for an unreadable file). -/
structure ScanFileInput where
  suffix : String
  jsonData : Except Unit JsonData
  textLines : Except Unit (List String)
deriving DecidableEq, Repr

/-- One line of the tab-delimited branch of `_load_scanfile`: 2+ fields give
a name/path/size record, a single field gives the single-column fallback
(skipped when, impossibly for a pre-stripped non-blank line, it is empty). -/
def parseLine (ln : String) : Option RawItem :=
  let parts := pySplitOn '\t' ln
  if ¬strTruthy (pyStrip ln) then none
  else if parts.length ≥ 2 then
    let name := pyStrip (parts.getD 0 "")
    let path := pyStrip (parts.getD 1 "")
    let size := if parts.length > 2 then pyStrip (parts.getD 2 "") else "N/A"
    let ext := if strTruthy name then pyLower (pathSuffix name) else ""
    some { name := some name, path := some path, size_display := some size,
           ext := some ext, category := some "Other" }
  else
    let name := pyStrip (parts.getD 0 "")
    if strTruthy name then
      some { name := some name, path := some name, size_display := some "N/A",
             ext := some (pyLower (pathSuffix name)), category := some "Other" }
    else none

/-- The tab-delimited branch of `_load_scanfile`: strip lines, drop blanks,
drop a header line containing both "name" and "path" (case-insensitive),
parse the remaining lines. -/
def loadText (input : ScanFileInput) : List RawItem :=
  match input.textLines with
  | .error _ => []
  | .ok lns =>
    let lines := (lns.map pyStrip).filter strTruthy
    match lines with
    | [] => []
    | first :: rest =>
      let lowered := pyLower first
      let body :=
        if strContains lowered "name" && strContains lowered "path" then rest
        else first :: rest
      body.filterMap parseLine

/-- `Compare._load_scanfile` from compare.py: the JSON branch runs only for a
`.json` suffix (case-insensitive); a parsed list is returned verbatim; a
non-list JSON value falls through to the delimited-text branch; any raise
gives `[]`. -/
def load_scanfile (input : ScanFileInput) : List RawItem :=
  if pyLower input.suffix = ".json" then
    match input.jsonData with
    | .error _ => []
    | .ok (.list xs) => xs
    | .ok .nonList => loadText input
  else loadText input

/-!  ## Helper lemmas about the scanner loop -/

/-- Fallback entry used to state positional facts about traces. -/
def defaultEntry : FileEntry :=
  ⟨"", "", .ok 0, ⟨.ok none, false, .ok [], false, .ok none⟩, .ok ""⟩

theorem scan_folder_eq_scanLoop (inc : Bool) (fmt : ℕ → String) (cb : Bool)
    (files : List FileEntry) :
    scan_folder inc fmt cb files = scanLoop inc fmt cb files.length 1 files := by
  cases files <;> rfl

theorem scanLoop_fst (inc : Bool) (fmt : ℕ → String) (cb : Bool) (total : ℕ) :
    ∀ (c : ℕ) (files : List FileEntry),
      (scanLoop inc fmt cb total c files).1 = files.filterMap (processFile inc fmt) := by
  intro c files
  induction files generalizing c with
  | nil => rfl
  | cons f fs ih =>
    simp only [scanLoop, List.filterMap_cons]
    cases h : processFile inc fmt f <;> simp [h, ih]

theorem scanLoop_snd_nocb (inc : Bool) (fmt : ℕ → String) (total : ℕ) :
    ∀ (c : ℕ) (files : List FileEntry),
      (scanLoop inc fmt false total c files).2 = [] := by
  intro c files
  induction files generalizing c with
  | nil => rfl
  | cons f fs ih => simp [scanLoop, ih]

theorem scanLoop_snd (inc : Bool) (fmt : ℕ → String) (total : ℕ) :
    ∀ (c : ℕ) (files : List FileEntry),
      (scanLoop inc fmt true total c files).2 =
        (List.range files.length).map
          (fun i => (pyPercent (c + i) total, (files.getD i defaultEntry).path)) := by
  intro c files
  induction files generalizing c with
  | nil => rfl
  | cons f fs ih =>
    simp only [scanLoop, ih, List.length_cons, List.range_succ_eq_map, List.map_cons,
      List.map_map, Nat.add_zero, List.getD_cons_zero]
    rw [if_pos trivial]
    congr 1
    apply List.map_congr_left
    intro i _
    simp only [Function.comp_apply, List.getD_cons_succ, Nat.succ_eq_add_one]
    congr 2
    omega

/-!  ## C9 -/

/-- C9: scanning a root with zero regular files returns the empty list and
never invokes the progress callback. -/
theorem C9_empty_scan : ∀ (inc : Bool) (fmt : ℕ → String) (cb : Bool),
    scan_folder inc fmt cb [] = ([], []) := by
  intro inc fmt cb
  rfl

/-!  ## C3 -/

/-- C3 counterexample: with hashing requested, a file whose hash computation
raises is simply skipped — the second file is still scanned and both progress
invocations fire, so the failure is not fatal to the scan. -/
theorem C3_counterexample :
    (scan_folder true (fun _ => "10.0 B") true
        [⟨"a.txt", "/r/a.txt", .ok 10, ⟨.ok none, false, .ok [], false, .ok none⟩, .error ()⟩,
         ⟨"b.txt", "/r/b.txt", .ok 20, ⟨.ok none, false, .ok [], false, .ok none⟩, .ok "h"⟩]).1 =
      [⟨"b.txt", "/r/b.txt", 20, "10.0 B", ".txt", "Other", none, "N/A", some "h"⟩] ∧
    (scan_folder true (fun _ => "10.0 B") true
        [⟨"a.txt", "/r/a.txt", .ok 10, ⟨.ok none, false, .ok [], false, .ok none⟩, .error ()⟩,
         ⟨"b.txt", "/r/b.txt", .ok 20, ⟨.ok none, false, .ok [], false, .ok none⟩, .ok "h"⟩]).2.length = 2 := by
  constructor
  · rw [scan_folder_eq_scanLoop, scanLoop_fst]
    decide
  · rw [scan_folder_eq_scanLoop, scanLoop_snd]
    decide

/-- C3 (amended): an unreadable file during hash computation is caught by the
per-file handler like any other per-file failure: that file yields no item,
every file is still processed, and the progress callback fires once per
file. -/
theorem C3_hash_failure_per_file :
    (∀ (fmt : ℕ → String) (f : FileEntry), f.hashResult = .error () →
        processFile true fmt f = none) ∧
    (∀ (inc : Bool) (fmt : ℕ → String) (cb : Bool) (files : List FileEntry),
        (scan_folder inc fmt cb files).1 = files.filterMap (processFile inc fmt)) ∧
    (∀ (inc : Bool) (fmt : ℕ → String) (files : List FileEntry),
        (scan_folder inc fmt true files).2.length = files.length) := by
  refine ⟨?_, ?_, ?_⟩
  · intro fmt f hf
    unfold processFile
    cases hs : f.statSize with
    | error e => rfl
    | ok size =>
      rw [hf]
      rfl
  · intro inc fmt cb files
    rw [scan_folder_eq_scanLoop, scanLoop_fst]
  · intro inc fmt files
    rw [scan_folder_eq_scanLoop, scanLoop_snd]
    simp

/-- C3 witness. -/
theorem C3_hash_failure_per_file_witness :
    processFile true (fun _ => "10.0 B")
        ⟨"a.txt", "/r/a.txt", .ok 10, ⟨.ok none, false, .ok [], false, .ok none⟩, .error ()⟩ = none ∧
    (scan_folder true (fun _ => "10.0 B") true
        [⟨"b.txt", "/r/b.txt", .ok 20, ⟨.ok none, false, .ok [], false, .ok none⟩, .ok "h"⟩]).1 =
      [⟨"b.txt", "/r/b.txt", 20, "10.0 B", ".txt", "Other", none, "N/A", some "h"⟩] ∧
    (scan_folder true (fun _ => "10.0 B") true
        [⟨"b.txt", "/r/b.txt", .ok 20, ⟨.ok none, false, .ok [], false, .ok none⟩, .ok "h"⟩]).2.length = 1 :=
  ⟨C3_hash_failure_per_file.1 _ _ rfl,
   by rw [C3_hash_failure_per_file.2.1]; decide,
   C3_hash_failure_per_file.2.2 _ _ _⟩

/-!  ## C10 -/

theorem colon_append_ne (a b : String) : (a ++ ":") ++ b ≠ "Error" := by
  intro h
  have hc : ':' ∈ ((a ++ ":") ++ b).data := by
    rw [String.data_append, String.data_append]
    exact List.mem_append.2 (Or.inl (List.mem_append.2 (Or.inr (by decide))))
  rw [h] at hc
  revert hc
  decide

theorem fmt_duration_ok_ne_error (d : Option PyFloat) (s : String)
    (h : fmt_duration d = .ok s) : s ≠ "Error" := by
  cases d with
  | none =>
    simp only [fmt_duration, Except.ok.injEq] at h
    subst h
    decide
  | some pf =>
    cases pf with
    | inf => exact absurd h (by simp [fmt_duration])
    | neginf => exact absurd h (by simp [fmt_duration])
    | nan => exact absurd h (by simp [fmt_duration])
    | finite q =>
      by_cases h0 : q = 0
      · simp only [fmt_duration, if_pos h0, Except.ok.injEq] at h
        subst h
        decide
      · simp only [fmt_duration, if_neg h0] at h
        split_ifs at h with hh <;> rw [Except.ok.injEq] at h <;> rw [← h]
        · exact colon_append_ne _ _
        · exact colon_append_ne _ _

theorem fmt_duration_error_iff (d : PyFloat) :
    fmt_duration (some d) = .error () ↔ (d = .inf ∨ d = .neginf ∨ d = .nan) := by
  cases d with
  | inf => simp [fmt_duration]
  | neginf => simp [fmt_duration]
  | nan => simp [fmt_duration]
  | finite q =>
    constructor
    · intro h
      by_cases h0 : q = 0
      · simp [fmt_duration, h0] at h
      · simp only [fmt_duration, if_neg h0] at h
        split_ifs at h
    · intro h
      rcases h with h | h | h <;> exact absurd h (by simp)

theorem scanDurationDisplay_cases (f : FileEntry) :
    scanDurationDisplay f = "N/A" ∨
      fmt_duration (scanDuration f) = .ok (scanDurationDisplay f) ∨
      (scanDurationDisplay f = "Error" ∧ scanDuration f = none) := by
  unfold scanDurationDisplay scanDuration
  split_ifs with h
  · cases hf : fmt_duration (get_duration f.durEnv) with
    | ok s =>
      right
      left
      exact hf
    | error e =>
      right
      right
      exact ⟨rfl, rfl⟩
  · left
    rfl

theorem processFile_some (inc : Bool) (fmt : ℕ → String) (f : FileEntry) (it : Item)
    (h : processFile inc fmt f = some it) :
    it.duration_display = scanDurationDisplay f ∧ it.duration = scanDuration f := by
  unfold processFile at h
  cases hs : f.statSize with
  | error e => rw [hs] at h; cases h
  | ok size =>
    rw [hs] at h
    cases inc with
    | false =>
      simp only [Bool.false_eq_true, if_false] at h
      cases h
      exact ⟨rfl, rfl⟩
    | true =>
      simp only [if_true] at h
      cases hh : f.hashResult with
      | error e => rw [hh] at h; cases h
      | ok hv =>
        rw [hh] at h
        cases h
        exact ⟨rfl, rfl⟩

/-- C10 counterexample: the `"Error"` display branch is reachable — when
ffprobe prints `inf` (parsed by `float(...)`, truthy, and returned by
`get_duration`), `_fmt_duration` raises in `int(seconds)` and the inner
`except` of `scan_folder` emits the item with `duration_display = "Error"`
and `duration = None`. -/
theorem C10_counterexample :
    ((scan_folder false (fun _ => "1.0 B") false
        [⟨"v.mp4", "/r/v.mp4", .ok 30,
          ⟨.ok (some .inf), false, .ok [], false, .ok none⟩, .ok "h"⟩]).1.map
      (fun it => it.duration_display)) = ["Error"] := by
  rw [scan_folder_eq_scanLoop, scanLoop_fst]
  decide

/-- C10 (amended): every item emitted by `scan_folder` has `duration_display`
equal to `"N/A"`, or to the successful formatting of its own recorded
duration, or to `"Error"` with the recorded duration reset to `None`; the
formatter never returns the string `"Error"` itself, and it raises exactly on
the non-finite durations `inf`, `-inf` and `nan` — so `"Error"` is reachable
only through a non-finite probed duration. -/
theorem C10_error_reachability :
    (∀ (inc : Bool) (fmt : ℕ → String) (cb : Bool) (files : List FileEntry) (it : Item),
        it ∈ (scan_folder inc fmt cb files).1 →
        it.duration_display = "N/A" ∨
          fmt_duration it.duration = .ok it.duration_display ∨
          (it.duration_display = "Error" ∧ it.duration = none)) ∧
    (∀ (d : Option PyFloat) (s : String), fmt_duration d = .ok s → s ≠ "Error") ∧
    (∀ d : PyFloat, fmt_duration (some d) = .error () ↔ (d = .inf ∨ d = .neginf ∨ d = .nan)) := by
  refine ⟨?_, ?_, ?_⟩
  · intro inc fmt cb files it hmem
    rw [scan_folder_eq_scanLoop, scanLoop_fst] at hmem
    rcases List.mem_filterMap.1 hmem with ⟨f, _, hf⟩
    obtain ⟨hdd, hd⟩ := processFile_some inc fmt f it hf
    rw [hdd, hd]
    exact scanDurationDisplay_cases f
  · exact fmt_duration_ok_ne_error
  · exact fmt_duration_error_iff

/-- C10 witness. -/
theorem C10_error_reachability_witness :
    ((⟨"v.mp4", "/r/v.mp4", 30, "SZ", ".mp4", "Videos", some (.finite 3723), "1:02:03", none⟩ : Item).duration_display = "N/A" ∨
      fmt_duration (⟨"v.mp4", "/r/v.mp4", 30, "SZ", ".mp4", "Videos", some (.finite 3723), "1:02:03", none⟩ : Item).duration =
        .ok (⟨"v.mp4", "/r/v.mp4", 30, "SZ", ".mp4", "Videos", some (.finite 3723), "1:02:03", none⟩ : Item).duration_display ∨
      ((⟨"v.mp4", "/r/v.mp4", 30, "SZ", ".mp4", "Videos", some (.finite 3723), "1:02:03", none⟩ : Item).duration_display = "Error" ∧
        (⟨"v.mp4", "/r/v.mp4", 30, "SZ", ".mp4", "Videos", some (.finite 3723), "1:02:03", none⟩ : Item).duration = none)) ∧
    ("1:02:03" : String) ≠ "Error" ∧
    fmt_duration (some .inf) = .error () :=
  ⟨C10_error_reachability.1 false (fun _ => "SZ") false
    [⟨"v.mp4", "/r/v.mp4", .ok 30, ⟨.ok (some (.finite 3723)), false, .ok [], false, .ok none⟩, .ok "h2"⟩]
    ⟨"v.mp4", "/r/v.mp4", 30, "SZ", ".mp4", "Videos", some (.finite 3723), "1:02:03", none⟩
    (by rw [scan_folder_eq_scanLoop, scanLoop_fst]; decide),
   C10_error_reachability.2.1 (some (.finite 3723)) "1:02:03" (by decide),
   (C10_error_reachability.2.2 .inf).2 (Or.inl rfl)⟩

/-!  ## C1 -/

/-- C1: evaluating `_compare_lists` on the claim's end-to-end scenario —
left `a.mp4` of size 100 versus right `a.mp4` of size 200.  The code reports
`both_same` (it hardcodes the status for keys present on both sides), even
though the dead `_items_match` cascade would judge the items different. -/
theorem C1_status_hardcoded :
    compare_lists [{ name := some "a.mp4", size := some (.int 100) }]
        [{ name := some "a.mp4", size := some (.int 200) }] =
      [{ file := "a mp4", category := "Other", status := "both_same",
         left_size := .str "100", right_size := .str "200" }] ∧
    items_match (normalize_item { name := some "a.mp4", size := some (.int 100) })
        (normalize_item { name := some "a.mp4", size := some (.int 200) }) = false := by
  constructor
  · decide
  · decide

/-!  ## C2 -/

/-- C2 counterexample: the audio and image categories are the German strings
`"Musik"` and `"Fotos"`, not `"Music"` and `"Photos"` as the claim states. -/
theorem C2_counterexample :
    (".mp3" ∈ AUDIO_EXTS) ∧ categorize_by_ext ".mp3" = "Musik" ∧
      categorize_by_ext ".mp3" ≠ "Music" ∧
    (".jpg" ∈ IMAGE_EXTS) ∧ categorize_by_ext ".jpg" = "Fotos" ∧
      categorize_by_ext ".jpg" ≠ "Photos" := by
  decide

/-- C2 (amended): `categorize_by_ext` depends only on its extension argument
(it is a pure function of `e`); it maps the video set to `"Videos"`, the
audio set to `"Musik"`, the image set to `"Fotos"`, and everything else to
`"Other"`; its range is this four-element set of labels. -/
theorem C2_categorize (e : String) :
    (e ∈ VIDEO_EXTS → categorize_by_ext e = "Videos") ∧
    (e ∈ AUDIO_EXTS → categorize_by_ext e = "Musik") ∧
    (e ∈ IMAGE_EXTS → categorize_by_ext e = "Fotos") ∧
    (e ∉ ALL_KNOWN → categorize_by_ext e = "Other") ∧
    categorize_by_ext e ∈ ["Videos", "Musik", "Fotos", "Other"] := by
  refine ⟨?_, ?_, ?_, ?_, ?_⟩
  · intro h
    simp [categorize_by_ext, h]
  · intro h
    fin_cases h <;> decide
  · intro h
    fin_cases h <;> decide
  · intro h
    simp only [ALL_KNOWN, List.mem_append, not_or] at h
    simp [categorize_by_ext, h.1.1, h.1.2, h.2]
  · unfold categorize_by_ext
    split_ifs <;> decide

/-- C2 witness. -/
theorem C2_categorize_witness :
    (".mp3" ∈ AUDIO_EXTS → categorize_by_ext ".mp3" = "Musik") ∧
    categorize_by_ext ".mp3" = "Musik" ∧
    (".xyz" ∉ ALL_KNOWN → categorize_by_ext ".xyz" = "Other") ∧
    categorize_by_ext ".xyz" = "Other" :=
  ⟨(C2_categorize ".mp3").2.1, (C2_categorize ".mp3").2.1 (by decide),
   (C2_categorize ".xyz").2.2.2.1, (C2_categorize ".xyz").2.2.2.1 (by decide)⟩

/-!  ## C4 -/

/-- Following the spec's words only: "returns the first strategy's non-empty
result", i.e. the first `some` among the three strategy outcomes in order.
Used to compare the spec's phrasing against `get_duration`. -/
def specFirstNonEmptyResult (env : DurEnv) : Option PyFloat :=
  [run_ffprobe_duration env, pymediainfo_duration env, mutagen_duration env].findSome? id

/-- Truthiness of a strategy result, phrased as an equation usable for
rewriting: only the parsed float `0.0` is falsy among present results. -/
theorem durTruthy_some_eq (d : PyFloat) : durTruthy (some d) = !(decide (d = .finite 0)) := by
  cases d with
  | finite q =>
    by_cases hq : q = 0
    · subst hq
      simp [durTruthy]
    · simp [durTruthy, hq]
  | inf => simp [durTruthy]
  | neginf => simp [durTruthy]
  | nan => simp [durTruthy]

theorem durTruthy_none : durTruthy none = false := rfl

/-- C4 counterexample: when ffprobe parses a duration of exactly `0.0`
(a non-empty result), `get_duration` does not return it — Python truthiness
(`if d:`) treats `0.0` like a failure and the chain falls through to a later
strategy. -/
theorem C4_counterexample :
    get_duration ⟨.ok (some (.finite 0)), false, .ok [], true, .ok (some (.finite 7))⟩ =
      some (.finite 7) ∧
    specFirstNonEmptyResult ⟨.ok (some (.finite 0)), false, .ok [], true, .ok (some (.finite 7))⟩ =
      some (.finite 0) ∧
    (some (PyFloat.finite 7) ≠ some (PyFloat.finite 0)) := by
  refine ⟨by decide, by decide, by decide⟩

/-- C4 (amended): `get_duration` tries the three strategies in fixed order
and returns the first non-zero result (a zero result is treated like no
result); it returns `none` when every strategy fails, is unavailable, or
yields zero/nothing; each strategy swallows its own exceptions and a missing
library yields `none`, so the probe is a total function of its environment. -/
theorem C4_probe_chain :
    (∀ env : DurEnv, get_duration env =
      [run_ffprobe_duration env, pymediainfo_duration env, mutagen_duration env].findSome?
        (fun o => o.bind fun d => if d = .finite 0 then none else some d)) ∧
    (∀ env : DurEnv, env.ffprobeOut = .error () → run_ffprobe_duration env = none) ∧
    (∀ env : DurEnv, env.mediaInfoAvail = false → pymediainfo_duration env = none) ∧
    (∀ env : DurEnv, env.mediaInfoTracks = .error () → pymediainfo_duration env = none) ∧
    (∀ env : DurEnv, env.mutagenAvail = false → mutagen_duration env = none) ∧
    (∀ env : DurEnv, env.mutagenInfo = .error () → mutagen_duration env = none) := by
  refine ⟨?_, ?_, ?_, ?_, ?_, ?_⟩
  · intro env
    unfold get_duration
    cases h1 : run_ffprobe_duration env with
    | none => cases h2 : pymediainfo_duration env with
      | none => cases h3 : mutagen_duration env with
        | none => simp [durTruthy_none, List.findSome?]
        | some d => by_cases hd : d = PyFloat.finite 0 <;>
            simp [durTruthy_none, durTruthy_some_eq, List.findSome?, hd]
      | some d => by_cases hd : d = PyFloat.finite 0 <;>
          (cases h3 : mutagen_duration env with
           | none => simp [durTruthy_none, durTruthy_some_eq, List.findSome?, hd]
           | some d3 => by_cases hd3 : d3 = PyFloat.finite 0 <;>
               simp [durTruthy_none, durTruthy_some_eq, List.findSome?, hd, hd3])
    | some d => by_cases hd : d = PyFloat.finite 0 <;>
        (cases h2 : pymediainfo_duration env with
         | none => cases h3 : mutagen_duration env with
           | none => simp [durTruthy_none, durTruthy_some_eq, List.findSome?, hd]
           | some d3 => by_cases hd3 : d3 = PyFloat.finite 0 <;>
               simp [durTruthy_none, durTruthy_some_eq, List.findSome?, hd, hd3]
         | some d2 => by_cases hd2 : d2 = PyFloat.finite 0 <;>
             (cases h3 : mutagen_duration env with
              | none => simp [durTruthy_none, durTruthy_some_eq, List.findSome?, hd, hd2]
              | some d3 => by_cases hd3 : d3 = PyFloat.finite 0 <;>
                  simp [durTruthy_none, durTruthy_some_eq, List.findSome?, hd, hd2, hd3]))
  · intro env h
    unfold run_ffprobe_duration
    rw [h]
  · intro env h
    unfold pymediainfo_duration
    rw [h]
    rfl
  · intro env h
    unfold pymediainfo_duration
    rw [h]
    cases ha : env.mediaInfoAvail <;> rfl
  · intro env h
    unfold mutagen_duration
    rw [h]
    rfl
  · intro env h
    unfold mutagen_duration
    rw [h]
    cases ha : env.mutagenAvail <;> rfl

/-- C4 witness. -/
theorem C4_probe_chain_witness :
    get_duration ⟨.error (), false, .error (), false, .error ()⟩ = none ∧
    run_ffprobe_duration ⟨.error (), false, .error (), false, .error ()⟩ = none ∧
    pymediainfo_duration ⟨.error (), false, .error (), false, .error ()⟩ = none ∧
    mutagen_duration ⟨.error (), false, .error (), false, .error ()⟩ = none :=
  ⟨(C4_probe_chain.1 ⟨.error (), false, .error (), false, .error ()⟩).trans (by decide),
   C4_probe_chain.2.1 _ rfl,
   C4_probe_chain.2.2.1 _ rfl,
   C4_probe_chain.2.2.2.2.1 _ rfl⟩

/-!  ## C6 -/

/-- C6 counterexample: a file whose content parses as a structured list but
whose name does not end in `.json` is not returned verbatim — the JSON branch
is gated on the suffix, so the content is parsed as delimited text instead
(here the single JSON line even looks like a header and is dropped). -/
theorem C6_counterexample :
    load_scanfile
        ⟨".txt", .ok (.list [{ name := some "z", path := some "p" }]),
         .ok ["[\x7b\"name\": \"z\", \"path\": \"p\"\x7d]"]⟩ = [] ∧
    ([] : List RawItem) ≠ [{ name := some "z", path := some "p" }] := by
  refine ⟨by decide, by decide⟩

/-- C6 (amended): the structured branch runs only when the file suffix is
`.json` (case-insensitively); then a parsed list is returned verbatim.  Any
other file — including one whose content would parse as a structured list —
and likewise a `.json` file whose structured content is not a list, is
treated as delimited text: non-blank stripped lines, a first line
containing both a name-like and a path-like token dropped as a header, each
remaining line split on tabs; 2+ fields give {name, path, size_display
(third field, default "N/A"), ext from name, category "Other"}, one field
gives a record with the lone value as both name and path and size_display
"N/A". -/
theorem C6_loader :
    (∀ (input : ScanFileInput) (xs : List RawItem),
        pyLower input.suffix = ".json" → input.jsonData = .ok (.list xs) →
        load_scanfile input = xs) ∧
    (∀ (input : ScanFileInput) (xs : List RawItem),
        pyLower input.suffix ≠ ".json" → input.jsonData = .ok (.list xs) →
        load_scanfile input = loadText input) ∧
    (∀ (input : ScanFileInput) (lns : List String),
        pyLower input.suffix ≠ ".json" → input.textLines = .ok lns →
        load_scanfile input =
          match (lns.map pyStrip).filter strTruthy with
          | [] => []
          | first :: rest =>
            (if strContains (pyLower first) "name" && strContains (pyLower first) "path"
             then rest else first :: rest).filterMap parseLine) ∧
    (∀ ln : String, strTruthy (pyStrip ln) → 2 ≤ (pySplitOn '\t' ln).length →
        parseLine ln = some
          { name := some (pyStrip ((pySplitOn '\t' ln).getD 0 "")),
            path := some (pyStrip ((pySplitOn '\t' ln).getD 1 "")),
            size_display := some (if 2 < (pySplitOn '\t' ln).length
                                  then pyStrip ((pySplitOn '\t' ln).getD 2 "") else "N/A"),
            ext := some (if strTruthy (pyStrip ((pySplitOn '\t' ln).getD 0 ""))
                         then pyLower (pathSuffix (pyStrip ((pySplitOn '\t' ln).getD 0 ""))) else ""),
            category := some "Other" }) ∧
    (∀ ln : String, strTruthy (pyStrip ln) → (pySplitOn '\t' ln).length < 2 →
        strTruthy (pyStrip ((pySplitOn '\t' ln).getD 0 "")) →
        parseLine ln = some
          { name := some (pyStrip ((pySplitOn '\t' ln).getD 0 "")),
            path := some (pyStrip ((pySplitOn '\t' ln).getD 0 "")),
            size_display := some "N/A",
            ext := some (pyLower (pathSuffix (pyStrip ((pySplitOn '\t' ln).getD 0 "")))),
            category := some "Other" }) ∧
    (∀ (input : ScanFileInput) (lns : List String),
        input.jsonData = .ok .nonList → input.textLines = .ok lns →
        load_scanfile input =
          match (lns.map pyStrip).filter strTruthy with
          | [] => []
          | first :: rest =>
            (if strContains (pyLower first) "name" && strContains (pyLower first) "path"
             then rest else first :: rest).filterMap parseLine) := by
  refine ⟨?_, ?_, ?_, ?_, ?_, ?_⟩
  · intro input xs h1 h2
    unfold load_scanfile
    rw [if_pos h1, h2]
  · intro input xs h1 h2
    unfold load_scanfile
    rw [if_neg h1]
  · intro input lns h1 h2
    unfold load_scanfile loadText
    rw [if_neg h1, h2]
  · intro ln h1 h2
    unfold parseLine
    rw [if_neg (by simp [h1]), if_pos h2]
  · intro ln h1 h2 h3
    unfold parseLine
    rw [if_neg (by simp [h1]), if_neg (by omega), if_pos h3]
  · intro input lns h1 h2
    unfold load_scanfile loadText
    rw [h1, h2]
    split_ifs <;> rfl

/-- C6 witness. -/
theorem C6_loader_witness :
    load_scanfile ⟨".JSON", .ok (.list [{ name := some "z" }]), .ok []⟩ = [{ name := some "z" }] ∧
    parseLine "x.mp4\t/p/x.mp4\t1.5 MiB" = some
      { name := some "x.mp4", path := some "/p/x.mp4", size_display := some "1.5 MiB",
        ext := some ".mp4", category := some "Other" } ∧
    parseLine "lone" = some
      { name := some "lone", path := some "lone", size_display := some "N/A",
        ext := some "", category := some "Other" } ∧
    load_scanfile ⟨".json", .ok .nonList, .ok ["lone"]⟩ =
      [{ name := some "lone", path := some "lone", size_display := some "N/A",
         ext := some "", category := some "Other" }] :=
  ⟨C6_loader.1 ⟨".JSON", .ok (.list [{ name := some "z" }]), .ok []⟩ _ (by decide) rfl,
   (C6_loader.2.2.2.1 "x.mp4\t/p/x.mp4\t1.5 MiB" (by decide) (by decide)).trans (by decide),
   (C6_loader.2.2.2.2.1 "lone" (by decide) (by decide) (by decide)).trans (by decide),
   (C6_loader.2.2.2.2.2 ⟨".json", .ok .nonList, .ok ["lone"]⟩ ["lone"] rfl rfl).trans (by decide)⟩

/-!  ## C7 -/

/-- C7: the loader is a total function of its input (it never raises), and
every failure path — unreadable or malformed JSON on a `.json` file,
unreadable text file — returns the empty list. -/
theorem C7_loader_never_raises :
    (∀ input : ScanFileInput, pyLower input.suffix = ".json" → input.jsonData = .error () →
        load_scanfile input = []) ∧
    (∀ input : ScanFileInput, pyLower input.suffix ≠ ".json" → input.textLines = .error () →
        load_scanfile input = []) ∧
    (∀ input : ScanFileInput, input.jsonData = .ok .nonList → input.textLines = .error () →
        load_scanfile input = []) := by
  refine ⟨?_, ?_, ?_⟩
  · intro input h1 h2
    unfold load_scanfile
    rw [if_pos h1, h2]
  · intro input h1 h2
    unfold load_scanfile loadText
    rw [if_neg h1, h2]
  · intro input h1 h2
    unfold load_scanfile loadText
    rw [h1, h2]
    split_ifs <;> rfl

/-- C7 witness. -/
theorem C7_loader_never_raises_witness :
    load_scanfile ⟨".json", .error (), .ok ["a\tb"]⟩ = [] ∧
    load_scanfile ⟨".txt", .ok .nonList, .error ()⟩ = [] ∧
    load_scanfile ⟨".json", .ok .nonList, .error ()⟩ = [] :=
  ⟨C7_loader_never_raises.1 _ (by decide) rfl,
   C7_loader_never_raises.2.1 _ (by decide) rfl,
   C7_loader_never_raises.2.2 _ rfl rfl⟩

/-!  ## C8 -/

theorem entryForKey_file (L R : List NormItem) (k : String) :
    (entryForKey L R k).file = k := by
  unfold entryForKey
  cases lookupKey L k <;> cases lookupKey R k <;> rfl

theorem mem_keysOf_iff (items : List NormItem) (k : String) :
    k ∈ keysOf items ↔ lookupKey items k ≠ [] := by
  unfold keysOf lookupKey
  rw [List.mem_map]
  constructor
  · rintro ⟨it, hmem, hk⟩ hnil
    rw [List.filter_eq_nil_iff] at hnil
    exact hnil it hmem (by simp [hk])
  · intro hne
    rcases hl : List.filter (fun it => decide (normalize_name it.name = k))
        (items.filter fun it => strTruthy it.name) with _ | ⟨it, rest⟩
    · exact absurd hl hne
    · have hmem : it ∈ List.filter (fun it => decide (normalize_name it.name = k))
          (items.filter fun it => strTruthy it.name) := by
        rw [hl]; exact List.mem_cons_self it rest
      rcases List.mem_filter.1 hmem with ⟨hin, hpred⟩
      exact ⟨it, hin, by simpa using hpred⟩

theorem compare_lists_map_file (left right : List RawItem) :
    (compare_lists left right).map (fun e => e.file) =
      List.insertionSort (fun a b => a ≤ b)
        ((keysOf (left.map normalize_item) ++ keysOf (right.map normalize_item)).dedup) := by
  unfold compare_lists
  rw [List.map_map]
  have : ((fun e : ResultEntry => e.file) ∘
      entryForKey (left.map normalize_item) (right.map normalize_item)) = id := by
    funext k
    exact entryForKey_file _ _ k
  rw [this, List.map_id]

/-- C8: the comparison result has exactly one entry per distinct key present
on either side, in strictly ascending (lexicographic) key order; an entry
whose key occurs only on the left has status `only_left` with empty right
display, and symmetrically for `only_right`. -/
theorem C8_result_shape (left right : List RawItem) :
    ((compare_lists left right).map (fun e => e.file)).Pairwise (· < ·) ∧
    (∀ k : String, k ∈ (compare_lists left right).map (fun e => e.file) ↔
      (k ∈ keysOf (left.map normalize_item) ∨ k ∈ keysOf (right.map normalize_item))) ∧
    (∀ e ∈ compare_lists left right,
      e.file ∈ keysOf (left.map normalize_item) →
      e.file ∉ keysOf (right.map normalize_item) →
      e.status = "only_left" ∧ e.right_size = .str "") ∧
    (∀ e ∈ compare_lists left right,
      e.file ∉ keysOf (left.map normalize_item) →
      e.file ∈ keysOf (right.map normalize_item) →
      e.status = "only_right" ∧ e.left_size = .str "") := by
  refine ⟨?_, ?_, ?_, ?_⟩
  · rw [compare_lists_map_file]
    have hsorted : List.Pairwise (fun a b : String => a ≤ b)
        (List.insertionSort (fun a b => a ≤ b)
          ((keysOf (left.map normalize_item) ++ keysOf (right.map normalize_item)).dedup)) :=
      List.sorted_insertionSort _ _
    have hnodup : (List.insertionSort (fun a b => a ≤ b)
        ((keysOf (left.map normalize_item) ++ keysOf (right.map normalize_item)).dedup)).Nodup :=
      (List.perm_insertionSort _ _).nodup_iff.2 (List.nodup_dedup _)
    exact (hsorted.and hnodup).imp fun h => lt_of_le_of_ne h.1 h.2
  · intro k
    rw [compare_lists_map_file, (List.perm_insertionSort _ _).mem_iff, List.mem_dedup,
      List.mem_append]
  · intro e he hkl hkr
    unfold compare_lists at he
    rcases List.mem_map.1 he with ⟨k, _, hmk⟩
    have hfile : e.file = k := by rw [← hmk]; exact entryForKey_file _ _ k
    rw [hfile] at hkl hkr
    rw [mem_keysOf_iff] at hkl hkr
    rw [not_not] at hkr
    subst hmk
    unfold entryForKey
    rcases hL : lookupKey (left.map normalize_item) k with _ | ⟨l, ls⟩
    · exact absurd hL hkl
    · rw [hkr]
      exact ⟨rfl, rfl⟩
  · intro e he hkl hkr
    unfold compare_lists at he
    rcases List.mem_map.1 he with ⟨k, _, hmk⟩
    have hfile : e.file = k := by rw [← hmk]; exact entryForKey_file _ _ k
    rw [hfile] at hkl hkr
    rw [mem_keysOf_iff] at hkl hkr
    rw [not_not] at hkl
    subst hmk
    unfold entryForKey
    rcases hR : lookupKey (right.map normalize_item) k with _ | ⟨r, rs⟩
    · exact absurd hR hkr
    · rw [hkl]
      exact ⟨rfl, rfl⟩

/-- C8 witness. -/
theorem C8_result_shape_witness :
    ("a mp4" ∈ (compare_lists [{ name := some "a.mp4", size := some (.int 100) }] []).map
        (fun e => e.file) ↔
      ("a mp4" ∈ keysOf (([{ name := some "a.mp4", size := some (.int 100) }] : List RawItem).map normalize_item) ∨
        "a mp4" ∈ keysOf (([] : List RawItem).map normalize_item))) ∧
    ({ file := "a mp4", category := "Other", status := "only_left",
       left_size := .str "100", right_size := .str "" } : ResultEntry).status = "only_left" ∧
    ({ file := "a mp4", category := "Other", status := "only_left",
       left_size := .str "100", right_size := .str "" } : ResultEntry).right_size = .str "" :=
  ⟨(C8_result_shape [{ name := some "a.mp4", size := some (.int 100) }] []).2.1 "a mp4",
   ((C8_result_shape [{ name := some "a.mp4", size := some (.int 100) }] []).2.2.1
      { file := "a mp4", category := "Other", status := "only_left",
        left_size := .str "100", right_size := .str "" }
      (by decide) (by decide) (by decide)).1,
   ((C8_result_shape [{ name := some "a.mp4", size := some (.int 100) }] []).2.2.1
      { file := "a mp4", category := "Other", status := "only_left",
        left_size := .str "100", right_size := .str "" }
      (by decide) (by decide) (by decide)).2⟩

/-!  ## Lemmas about the binary64 model -/

theorem floor_le_rnd (x : ℚ) : ⌊x⌋ ≤ rndHalfEven x := by
  simp only [rndHalfEven]
  split_ifs <;> omega

theorem rnd_le_floor_add_one (x : ℚ) : rndHalfEven x ≤ ⌊x⌋ + 1 := by
  simp only [rndHalfEven]
  split_ifs <;> omega

theorem rnd_intCast (n : ℤ) : rndHalfEven (n : ℚ) = n := by
  simp only [rndHalfEven, Int.floor_intCast, sub_self]
  norm_num

theorem rnd_mono : Monotone rndHalfEven := by
  intro x y hxy
  rcases lt_or_eq_of_le (Int.floor_mono hxy) with hf | hf
  · calc rndHalfEven x ≤ ⌊x⌋ + 1 := rnd_le_floor_add_one x
      _ ≤ ⌊y⌋ := by omega
      _ ≤ rndHalfEven y := floor_le_rnd y
  · by_cases hx1 : x - (⌊x⌋ : ℚ) < 1 / 2
    · have hx : rndHalfEven x = ⌊x⌋ := by
        simp only [rndHalfEven]
        rw [if_pos hx1]
      rw [hx, hf]
      exact floor_le_rnd y
    · have hfr : x - (⌊x⌋ : ℚ) ≤ y - (⌊y⌋ : ℚ) := by
        rw [← hf]
        linarith
      have hy1 : ¬ (y - (⌊y⌋ : ℚ) < 1 / 2) := by
        intro hc
        exact hx1 (lt_of_le_of_lt hfr hc)
      by_cases hy2 : (1 : ℚ) / 2 < y - (⌊y⌋ : ℚ)
      · have hy : rndHalfEven y = ⌊y⌋ + 1 := by
          simp only [rndHalfEven]
          rw [if_neg hy1, if_pos hy2]
        rw [hy, ← hf]
        exact rnd_le_floor_add_one x
      · have hxy' : x = y := by
          have h1 : y - (⌊y⌋ : ℚ) = 1 / 2 := le_antisymm (not_lt.1 hy2) (not_lt.1 hy1)
          have h2 : x - (⌊x⌋ : ℚ) = 1 / 2 := le_antisymm (by linarith) (not_lt.1 hx1)
          have h3 := h2.trans h1.symm
          rw [← hf] at h3
          linarith
        rw [hxy']

theorem roundFloat_nonneg (q : ℚ) : 0 ≤ roundFloat q := by
  unfold roundFloat
  split_ifs with h
  · exact le_refl 0
  · push_neg at h
    apply mul_nonneg
    · have harg : (0 : ℚ) ≤ q * (2 : ℚ) ^ ((52 : ℤ) - Int.log 2 q) := by positivity
      have : (0 : ℤ) ≤ ⌊q * (2 : ℚ) ^ ((52 : ℤ) - Int.log 2 q)⌋ := Int.floor_nonneg.2 harg
      exact_mod_cast le_trans this (floor_le_rnd _)
    · positivity

theorem roundFloat_le_zpow {x : ℚ} (hx : 0 < x) :
    roundFloat x ≤ (2 : ℚ) ^ (Int.log 2 x + 1) := by
  unfold roundFloat
  rw [if_neg (not_le.2 hx)]
  have harg : x * (2 : ℚ) ^ ((52 : ℤ) - Int.log 2 x) <
      (2 : ℚ) ^ (Int.log 2 x + 1) * (2 : ℚ) ^ ((52 : ℤ) - Int.log 2 x) :=
    mul_lt_mul_of_pos_right (Int.lt_zpow_succ_log_self (by norm_num) x) (by positivity)
  rw [← zpow_add₀ (two_ne_zero) (Int.log 2 x + 1) ((52 : ℤ) - Int.log 2 x)] at harg
  have he : Int.log 2 x + 1 + ((52 : ℤ) - Int.log 2 x) = 53 := by ring
  rw [he] at harg
  have h53 : ((2 : ℚ) ^ (53 : ℤ)) = ((2 ^ 53 : ℤ) : ℚ) := by
    rw [show (53 : ℤ) = ((53 : ℕ) : ℤ) from rfl, zpow_natCast]
    push_cast
    rfl
  have hfl : ⌊x * (2 : ℚ) ^ ((52 : ℤ) - Int.log 2 x)⌋ < 2 ^ 53 := by
    rw [Int.floor_lt]
    rw [← h53] at *
    exact harg
  have hrnd : rndHalfEven (x * (2 : ℚ) ^ ((52 : ℤ) - Int.log 2 x)) ≤ 2 ^ 53 := by
    have := rnd_le_floor_add_one (x * (2 : ℚ) ^ ((52 : ℤ) - Int.log 2 x))
    omega
  calc (rndHalfEven (x * (2 : ℚ) ^ ((52 : ℤ) - Int.log 2 x)) : ℚ) *
        (2 : ℚ) ^ (Int.log 2 x - 52)
      ≤ ((2 ^ 53 : ℤ) : ℚ) * (2 : ℚ) ^ (Int.log 2 x - 52) := by
        apply mul_le_mul_of_nonneg_right _ (by positivity)
        exact_mod_cast hrnd
    _ = (2 : ℚ) ^ (Int.log 2 x + 1) := by
        rw [← h53, ← zpow_add₀ (two_ne_zero) (53 : ℤ) (Int.log 2 x - 52)]
        congr 1
        ring

theorem zpow_le_roundFloat {y : ℚ} (hy : 0 < y) :
    (2 : ℚ) ^ (Int.log 2 y) ≤ roundFloat y := by
  unfold roundFloat
  rw [if_neg (not_le.2 hy)]
  have harg : (2 : ℚ) ^ (Int.log 2 y) * (2 : ℚ) ^ ((52 : ℤ) - Int.log 2 y) ≤
      y * (2 : ℚ) ^ ((52 : ℤ) - Int.log 2 y) :=
    mul_le_mul_of_nonneg_right (Int.zpow_log_le_self (by norm_num) hy) (by positivity)
  rw [← zpow_add₀ (two_ne_zero) (Int.log 2 y) ((52 : ℤ) - Int.log 2 y)] at harg
  have he : Int.log 2 y + ((52 : ℤ) - Int.log 2 y) = 52 := by ring
  rw [he] at harg
  have h52 : ((2 : ℚ) ^ (52 : ℤ)) = ((2 ^ 52 : ℤ) : ℚ) := by
    rw [show (52 : ℤ) = ((52 : ℕ) : ℤ) from rfl, zpow_natCast]
    push_cast
    rfl
  have hfl : (2 : ℤ) ^ 52 ≤ ⌊y * (2 : ℚ) ^ ((52 : ℤ) - Int.log 2 y)⌋ := by
    rw [Int.le_floor, ← h52]
    exact harg
  have hrnd : (2 : ℤ) ^ 52 ≤ rndHalfEven (y * (2 : ℚ) ^ ((52 : ℤ) - Int.log 2 y)) := by
    have := floor_le_rnd (y * (2 : ℚ) ^ ((52 : ℤ) - Int.log 2 y))
    omega
  calc (2 : ℚ) ^ (Int.log 2 y)
      = ((2 ^ 52 : ℤ) : ℚ) * (2 : ℚ) ^ (Int.log 2 y - 52) := by
        rw [← h52, ← zpow_add₀ (two_ne_zero) (52 : ℤ) (Int.log 2 y - 52)]
        congr 1
        ring
    _ ≤ (rndHalfEven (y * (2 : ℚ) ^ ((52 : ℤ) - Int.log 2 y)) : ℚ) *
        (2 : ℚ) ^ (Int.log 2 y - 52) := by
        apply mul_le_mul_of_nonneg_right _ (by positivity)
        exact_mod_cast hrnd

theorem roundFloat_mono : Monotone roundFloat := by
  intro x y hxy
  rcases le_or_lt x 0 with hx | hx
  · rw [show roundFloat x = 0 by unfold roundFloat; rw [if_pos hx]]
    exact roundFloat_nonneg y
  · have hy : 0 < y := lt_of_lt_of_le hx hxy
    rcases lt_or_eq_of_le (Int.log_mono_right hx hxy : Int.log 2 x ≤ Int.log 2 y) with hlog | hlog
    · calc roundFloat x ≤ (2 : ℚ) ^ (Int.log 2 x + 1) := roundFloat_le_zpow hx
        _ ≤ (2 : ℚ) ^ (Int.log 2 y) := zpow_le_zpow_right₀ one_le_two (by omega)
        _ ≤ roundFloat y := zpow_le_roundFloat hy
    · unfold roundFloat
      rw [if_neg (not_le.2 hx), if_neg (not_le.2 hy), ← hlog]
      apply mul_le_mul_of_nonneg_right _ (by positivity)
      have harg : x * (2 : ℚ) ^ ((52 : ℤ) - Int.log 2 x) ≤
          y * (2 : ℚ) ^ ((52 : ℤ) - Int.log 2 x) :=
        mul_le_mul_of_nonneg_right hxy (by positivity)
      exact_mod_cast rnd_mono harg

theorem pyInt_of_nonneg {q : ℚ} (h : 0 ≤ q) : pyInt q = ⌊q⌋ := by
  unfold pyInt
  rw [if_neg (not_lt.2 h)]

theorem pyPercent_mono (t : ℕ) {c c' : ℕ} (hc : c ≤ c') : pyPercent c t ≤ pyPercent c' t := by
  have hdiv : ((c : ℚ) / (t : ℚ)) ≤ ((c' : ℚ) / (t : ℚ)) := by
    rcases Nat.eq_zero_or_pos t with ht | ht
    · subst ht
      norm_num
    · have hcq : (c : ℚ) ≤ (c' : ℚ) := by exact_mod_cast hc
      gcongr
  unfold pyPercent
  apply Int.toNat_le_toNat
  rw [pyInt_of_nonneg (roundFloat_nonneg _), pyInt_of_nonneg (roundFloat_nonneg _)]
  exact Int.floor_mono (roundFloat_mono
    (mul_le_mul_of_nonneg_right (roundFloat_mono hdiv) (by norm_num)))

theorem log2_eq {q : ℚ} {z : ℤ} (hq : 0 < q) (h1 : (2 : ℚ) ^ z ≤ q)
    (h2 : q < (2 : ℚ) ^ (z + 1)) : Int.log 2 q = z := by
  have ha : z ≤ Int.log 2 q := (Int.zpow_le_iff_le_log (by norm_num) hq).1 h1
  have hb : Int.log 2 q < z + 1 := (Int.lt_zpow_iff_log_lt (by norm_num) hq).1 h2
  omega

theorem roundFloat_eval {q : ℚ} {e m : ℤ}
    (hq : 0 < q) (h1 : (2 : ℚ) ^ e ≤ q) (h2 : q < (2 : ℚ) ^ (e + 1))
    (hm : rndHalfEven (q * (2 : ℚ) ^ ((52 : ℤ) - e)) = m) :
    roundFloat q = (m : ℚ) * (2 : ℚ) ^ (e - 52) := by
  simp only [roundFloat]
  rw [if_neg (not_le.2 hq), log2_eq hq h1 h2, hm]

theorem rnd_eval_lt {x : ℚ} {n : ℤ} (hfl : ⌊x⌋ = n) (hlt : x - (n : ℚ) < 1 / 2) :
    rndHalfEven x = n := by
  simp only [rndHalfEven]
  rw [hfl, if_pos hlt]

theorem roundFloat_one : roundFloat (1 : ℚ) = 1 := by
  have h := roundFloat_eval (q := 1) (e := 0) (m := 2 ^ 52) one_pos (by norm_num)
    (by norm_num)
    (by
      rw [show (1 : ℚ) * (2 : ℚ) ^ ((52 : ℤ) - 0) = ((2 ^ 52 : ℤ) : ℚ) by
        rw [show (52 : ℤ) - 0 = ((52 : ℕ) : ℤ) from rfl, zpow_natCast]
        push_cast
        norm_num]
      exact rnd_intCast _)
  rw [h]
  rw [show ((2 ^ 52 : ℤ) : ℚ) = (2 : ℚ) ^ ((52 : ℕ) : ℤ) by rw [zpow_natCast]; push_cast; norm_num]
  rw [← zpow_add₀ (two_ne_zero : (2 : ℚ) ≠ 0)]
  norm_num

theorem roundFloat_hundred : roundFloat (100 : ℚ) = 100 := by
  have h := roundFloat_eval (q := 100) (e := 6) (m := 100 * 2 ^ 46) (by norm_num)
    (by norm_num)
    (by norm_num)
    (by
      rw [show (100 : ℚ) * (2 : ℚ) ^ ((52 : ℤ) - 6) = ((100 * 2 ^ 46 : ℤ) : ℚ) by
        rw [show (52 : ℤ) - 6 = ((46 : ℕ) : ℤ) from rfl, zpow_natCast]
        push_cast
        norm_num]
      exact rnd_intCast _)
  rw [h]
  rw [show ((100 * 2 ^ 46 : ℤ) : ℚ) = 100 * (2 : ℚ) ^ ((46 : ℕ) : ℤ) by
    rw [zpow_natCast]; push_cast; norm_num]
  rw [mul_assoc, ← zpow_add₀ (two_ne_zero : (2 : ℚ) ≠ 0)]
  norm_num

theorem pyPercent_self {t : ℕ} (ht : 0 < t) : pyPercent t t = 100 := by
  unfold pyPercent
  have hne : ((t : ℚ)) ≠ 0 := by
    exact_mod_cast ht.ne'
  rw [div_self hne, roundFloat_one, one_mul, roundFloat_hundred,
    pyInt_of_nonneg (by norm_num)]
  rw [show ⌊(100 : ℚ)⌋ = 100 from by norm_num]
  rfl

theorem roundFloat_29_50 :
    roundFloat ((29 : ℚ) / 50) = (5224175567749775 : ℚ) * (2 : ℚ) ^ ((-1 : ℤ) - 52) := by
  apply roundFloat_eval (e := -1)
  · norm_num
  · rw [show ((-1 : ℤ)) = -((1 : ℕ) : ℤ) by norm_num, zpow_neg, zpow_natCast]
    norm_num
  · rw [show ((-1 : ℤ) + 1) = ((0 : ℕ) : ℤ) by norm_num, zpow_natCast]
    norm_num
  · rw [show ((52 : ℤ) - (-1)) = ((53 : ℕ) : ℤ) by norm_num, zpow_natCast]
    apply rnd_eval_lt
    · rw [Int.floor_eq_iff]
      norm_num
    · norm_num

theorem roundFloat_29_50_x100 :
    roundFloat ((5224175567749775 : ℚ) * (2 : ℚ) ^ ((-1 : ℤ) - 52) * 100) =
      (8162774324609023 : ℚ) * (2 : ℚ) ^ ((5 : ℤ) - 52) := by
  apply roundFloat_eval (e := 5)
  · rw [show ((-1 : ℤ) - 52) = -((53 : ℕ) : ℤ) by norm_num, zpow_neg, zpow_natCast]
    positivity
  · rw [show ((-1 : ℤ) - 52) = -((53 : ℕ) : ℤ) by norm_num, zpow_neg, zpow_natCast,
      show ((5 : ℤ)) = ((5 : ℕ) : ℤ) by norm_num, zpow_natCast]
    norm_num
  · rw [show ((-1 : ℤ) - 52) = -((53 : ℕ) : ℤ) by norm_num, zpow_neg, zpow_natCast,
      show ((5 : ℤ) + 1) = ((6 : ℕ) : ℤ) by norm_num, zpow_natCast]
    norm_num
  · rw [show ((-1 : ℤ) - 52) = -((53 : ℕ) : ℤ) by norm_num, zpow_neg, zpow_natCast,
      show ((52 : ℤ) - 5) = ((47 : ℕ) : ℤ) by norm_num, zpow_natCast]
    apply rnd_eval_lt
    · rw [Int.floor_eq_iff]
      norm_num
    · norm_num

theorem pyPercent_29_50 : pyPercent 29 50 = 57 := by
  unfold pyPercent
  rw [show (((29 : ℕ) : ℚ) / ((50 : ℕ) : ℚ)) = (29 : ℚ) / 50 by norm_num]
  rw [roundFloat_29_50, roundFloat_29_50_x100, pyInt_of_nonneg (by positivity)]
  rw [show ((5 : ℤ) - 52) = -((47 : ℕ) : ℤ) by norm_num, zpow_neg, zpow_natCast]
  rw [show ⌊(8162774324609023 : ℚ) * ((2 : ℚ) ^ (47 : ℕ))⁻¹⌋ = 57 by
    rw [Int.floor_eq_iff]
    norm_num]
  rfl

/-!  ## C5 -/

/-- A root holding `n` plain files, used to exhibit concrete progress
traces. -/
def mkPlainFiles (n : ℕ) : List FileEntry :=
  (List.range n).map fun i =>
    ⟨"f.txt", toString i, .ok 1, ⟨.ok none, false, .ok [], false, .ok none⟩, .ok "h"⟩

/-- C5 counterexample: scanning 50 files, the 29th progress callback reports
percent 57 — the binary64 evaluation of `int((29 / 50) * 100)` — while the
claimed exact formula gives `floor(29 / 50 × 100) = 58`. -/
theorem C5_counterexample :
    ((scan_folder false (fun _ => "1.0 B") true (mkPlainFiles 50)).2.getD 28 (0, "")).1 = 57 ∧
    (29 * 100) / 50 = 58 ∧ 57 ≠ 58 := by
  refine ⟨?_, by norm_num, by norm_num⟩
  rw [scan_folder_eq_scanLoop, scanLoop_snd]
  have hlen : (mkPlainFiles 50).length = 50 := by
    simp [mkPlainFiles]
  rw [hlen]
  simp only [List.getD_eq_getElem?_getD, List.getElem?_map, List.getElem?_range]
  norm_num
  exact pyPercent_29_50

/-- C5 (amended): with a callback supplied, scanning `N` files invokes the
callback exactly `N` times, once per file (also for files whose processing
raised, which are excluded from the returned list); the reported percent for
file `i + 1` of `N` is the binary64 evaluation of
`int((count / total) * 100)` (which can differ by one from the exact
`floor(count / total × 100)`), these percents are non-decreasing, and the
final one is exactly 100. -/
theorem C5_progress :
    (∀ (inc : Bool) (fmt : ℕ → String) (files : List FileEntry),
        (scan_folder inc fmt true files).2 =
          (List.range files.length).map
            (fun i => (pyPercent (i + 1) files.length, (files.getD i defaultEntry).path))) ∧
    (∀ (t c c' : ℕ), c ≤ c' → pyPercent c t ≤ pyPercent c' t) ∧
    (∀ t : ℕ, 0 < t → pyPercent t t = 100) ∧
    (∀ (inc : Bool) (fmt : ℕ → String) (cb : Bool) (files : List FileEntry),
        (scan_folder inc fmt cb files).1 = files.filterMap (processFile inc fmt)) ∧
    (∀ (inc : Bool) (fmt : ℕ → String) (f : FileEntry),
        f.statSize = .error () → processFile inc fmt f = none) := by
  refine ⟨?_, ?_, ?_, ?_, ?_⟩
  · intro inc fmt files
    rw [scan_folder_eq_scanLoop, scanLoop_snd]
    apply List.map_congr_left
    intro i _
    rw [Nat.add_comm 1 i]
  · intro t c c' hc
    exact pyPercent_mono t hc
  · intro t ht
    exact pyPercent_self ht
  · intro inc fmt cb files
    rw [scan_folder_eq_scanLoop, scanLoop_fst]
  · intro inc fmt f h
    unfold processFile
    rw [h]

/-- C5 witness. -/
theorem C5_progress_witness :
    (scan_folder false (fun _ => "1.0 B") true [defaultEntry]).2 = [(pyPercent 1 1, "")] ∧
    pyPercent 1 1 = 100 ∧
    pyPercent 1 2 ≤ pyPercent 2 2 ∧
    processFile false (fun _ => "1.0 B")
      ⟨"a.txt", "/r/a.txt", .error (), ⟨.ok none, false, .ok [], false, .ok none⟩, .ok "h"⟩ = none :=
  ⟨by rw [C5_progress.1]; rfl,
   C5_progress.2.2.1 1 one_pos,
   C5_progress.2.1 2 1 2 (by norm_num),
   C5_progress.2.2.2.2 _ _ _ rfl⟩
